import Mathlib

/-!
Verification development for the `tauria-tsgen` extraction engine
(`src/generator/type_extractor.rs`).

The Rust code is shallowly embedded: `syn` syntax nodes become inductive
types, and every extraction function is ported as a computable Lean
definition that mirrors the Rust control flow.  Rust's `HashMap` of import
aliases is modelled as an association list where a later insert shadows
earlier bindings for the same key, matching `HashMap::insert` overwrite
semantics together with first-match lookup.  Recursive syntax lists are
their own inductive types (`RustTypes`, `Exprs`, `UseTrees`) so that all
ported functions are structurally recursive and evaluate definitionally.
-/

namespace TauriaTsgen

/-- The fixed deny-list `IGNORED_TAURI_TYPES` from `type_extractor.rs`. -/
def IGNORED_TAURI_TYPES : List String :=
  ["tauri::WebviewWindow", "tauri::State", "tauri::AppHandle", "tauri::Window"]

mutual
/-- Embedding of the fragment of `syn::Type` that the extractor inspects.
`path pre ident args` stands for `Type::Path` whose segments are
`pre ++ [ident]` and whose last segment carries the angle-bracketed type
arguments `args`; `reference` is `Type::Reference`, `tuple` is
`Type::Tuple`, and `otherTy` covers every other `syn::Type` variant
(all of which fall into the extractor's catch-all arms). -/
inductive RustType where
  | path (pre : List String) (ident : String) (args : RustTypes)
  | reference (elem : RustType)
  | tuple (elems : RustTypes)
  | otherTy
deriving DecidableEq

/-- A list of `RustType`, as its own inductive so that the ported
functions are structurally recursive and reduce definitionally. -/
inductive RustTypes where
  | nil
  | cons (head : RustType) (tail : RustTypes)
deriving DecidableEq
end

/-- Convert an embedded argument list to an ordinary `List`. -/
def RustTypes.toList : RustTypes → List RustType
  | .nil => []
  | .cons h t => h :: t.toList

/-- The `&str` special case of `type_to_ts`'s `Type::Reference` arm: the
referent is a path type whose last segment is the identifier `str`. -/
def is_str_slice : RustType → Bool
  | .path _ ident _ => ident = "str"
  | _ => false

/-- The arm of the Rust `match ident_str.as_str()` dispatch in `type_to_ts`
selected by a path type's last-segment identifier. -/
inductive IdentArm where
  | prim (ts : String)
  | optionArm
  | vecArm
  | hashMapArm
  | resultArm
  | defaultArm
deriving DecidableEq

/-- The `match ident_str.as_str()` dispatch of `type_to_ts`: primitives map
to their fixed TypeScript names, the four generic containers select their
arm, and everything else falls through to the default arm. -/
def classify_ident (ident : String) : IdentArm :=
  if ident = "String" then .prim "string"
  else if ident = "bool" then .prim "boolean"
  else if ident ∈ ["u8", "u16", "u32", "u64", "u128", "i8", "i16", "i32",
      "i64", "i128", "usize", "isize", "f32", "f64"] then .prim "number"
  else if ident = "Option" then .optionArm
  else if ident = "Vec" then .vecArm
  else if ident = "HashMap" then .hashMapArm
  else if ident = "Result" then .resultArm
  else .defaultArm

/-- The `Type::Path` arm of `type_to_ts`.  `mapped_args` holds the
recursively mapped generic arguments of the last segment (the Rust code
maps lazily inside the selected arm; since `type_to_ts` is pure and total,
mapping eagerly yields the same strings).  `Option<T>` appends
`" | undefined"`, `Vec<T>` appends `"[]"` with no parenthesization,
`HashMap<K, V>` (exactly two arguments) becomes a `Record`, `Result<T, E>`
keeps only the success arm, and an unknown identifier gets the `T.` foreign
marker when in strict mode or not among the defined type names.  Missing
generic arguments hit the Rust fallbacks (`"any"`, `"any[]"`,
`"Record<any, any>"`). -/
def path_type_to_ts (ident : String) (mapped_args : List String)
    (defined_types : List String) (is_tauri_command_type : Bool) : String :=
  match classify_ident ident with
  | .prim s => s
  | .optionArm =>
    match mapped_args with
    | inner_ts_type :: _ => inner_ts_type ++ " | undefined"
    | [] => "any"
  | .vecArm =>
    match mapped_args with
    | inner_ts_type :: _ => inner_ts_type ++ "[]"
    | [] => "any[]"
  | .hashMapArm =>
    match mapped_args with
    | [key_ts_type, value_ts_type] =>
      "Record<" ++ key_ts_type ++ ", " ++ value_ts_type ++ ">"
    | _ => "Record<any, any>"
  | .resultArm =>
    match mapped_args with
    | ok_ts_type :: _ => ok_ts_type
    | [] => "any"
  | .defaultArm =>
    if is_tauri_command_type || !(defined_types.contains ident) then "T." ++ ident
    else ident

mutual
/-- Port of `type_to_ts` from `type_extractor.rs`: maps a declared Rust
type to a TypeScript type-expression string.  `defined_types` is the list
of user-defined type names; `is_tauri_command_type` is the strict flag
(true at command boundaries).  A reference to `str` maps to `"string"`
without recursing; any other reference unwraps to its referent; the empty
tuple maps to `"void"` and a non-empty tuple to a bracketed element list;
every other non-path type falls back to `"any"`. -/
def type_to_ts (ty : RustType) (defined_types : List String)
    (is_tauri_command_type : Bool) : String :=
  match ty with
  | .path _ ident args =>
    path_type_to_ts ident
      (type_to_ts_list args defined_types is_tauri_command_type)
      defined_types is_tauri_command_type
  | .reference elem =>
    if is_str_slice elem then "string"
    else type_to_ts elem defined_types is_tauri_command_type
  | .tuple elems =>
    if elems = RustTypes.nil then "void"
    else "[" ++ String.intercalate ", "
      (type_to_ts_list elems defined_types is_tauri_command_type) ++ "]"
  | .otherTy => "any"

/-- Element-wise `type_to_ts` over an embedded type list. -/
def type_to_ts_list (tys : RustTypes) (defined_types : List String)
    (is_tauri_command_type : Bool) : List String :=
  match tys with
  | .nil => []
  | .cons t ts =>
    type_to_ts t defined_types is_tauri_command_type
      :: type_to_ts_list ts defined_types is_tauri_command_type
end

mutual
/-- Port of `get_user_defined_type_names`: collects every name from
`defined_types_names` reachable in the type expression through reference,
tuple and generic-argument positions. -/
def get_user_defined_type_names (ty : RustType)
    (defined_types_names : List String) : List String :=
  match ty with
  | .path _ ident args =>
    (if defined_types_names.contains ident then [ident] else [])
      ++ get_user_defined_type_names_list args defined_types_names
  | .reference elem => get_user_defined_type_names elem defined_types_names
  | .tuple elems => get_user_defined_type_names_list elems defined_types_names
  | .otherTy => []

/-- Element-wise collection over an embedded type list. -/
def get_user_defined_type_names_list (tys : RustTypes)
    (defined_types_names : List String) : List String :=
  match tys with
  | .nil => []
  | .cons t ts =>
    get_user_defined_type_names t defined_types_names
      ++ get_user_defined_type_names_list ts defined_types_names
end

/-- Shorthand: a bare single-segment path type. -/
def tyName (s : String) : RustType := .path [] s .nil

/-- Shorthand: a single-argument generic type `ident<a>`. -/
def tyApp (ident : String) (a : RustType) : RustType :=
  .path [] ident (.cons a .nil)

/-- Shorthand: a two-argument generic type `ident<a, b>`. -/
def tyApp2 (ident : String) (a b : RustType) : RustType :=
  .path [] ident (.cons a (.cons b .nil))

/-- The parsed payload of a `syn::Attribute`: `paths` models a meta list
whose arguments parse as a comma-separated sequence of paths (each a
segment list), `strVal` models a name-value attribute with a string
literal (doc comments), and `plain` everything else. -/
inductive AttrArgs where
  | paths (ps : List (List String))
  | strVal (s : String)
  | plain
deriving DecidableEq

/-- Embedding of `syn::Attribute`: the attribute path's segments plus its
parsed arguments. -/
structure Attr where
  path : List String
  args : AttrArgs
deriving DecidableEq

/-- Port of the derive-detection helper: some attribute has the single-segment path
`derive` and its arguments parse as a path list one of whose paths has
`macro_name` as its last segment. -/
def has_derive_macro (attrs : List Attr) (macro_name : String) : Bool :=
  attrs.any fun attr =>
    attr.path = ["derive"] &&
      match attr.args with
      | .paths ps => ps.any fun p => p.getLast? = some macro_name
      | _ => false

/-- Port of `has_tauri_command`: accepts the `#[command]` and
`#[tauri::command]` spellings. -/
def has_tauri_command (attrs : List Attr) : Bool :=
  attrs.any fun attr =>
    attr.path = ["command"] || attr.path = ["tauri", "command"]

/-- Port of `extract_doc_comments`: the trimmed string values of all `doc`
name-value attributes, joined with newlines. -/
def extract_doc_comments (attrs : List Attr) : String :=
  String.intercalate "\n" (attrs.filterMap fun attr =>
    if attr.path = ["doc"] then
      match attr.args with
      | .strVal s => some s.trim
      | _ => none
    else none)

/-- One field of a generated TypeScript interface (the JSON objects built
by `convert_struct_to_ts_interface`): name, mapped type, doc text. -/
structure TsField where
  name : String
  ty : String
  doc_comment : String
deriving DecidableEq

/-- The kind of a generated enum variant: `unit`, `tupleK` (ordered member
type strings), or `structK` (named members). -/
inductive TsVariantKind where
  | unit
  | tupleK (members : List String)
  | structK (members : List TsField)
deriving DecidableEq

/-- One generated enum variant. -/
structure TsVariant where
  name : String
  doc_comment : String
  kind : TsVariantKind
deriving DecidableEq

/-- The `serde_json::Value` built for one type declaration, as structured
data: either an interface (from a struct) or an enum. -/
inductive TsShape where
  | interface (name : String) (doc_comment : String) (fields : List TsField)
  | enumShape (name : String) (doc_comment : String) (variants : List TsVariant)
deriving DecidableEq

/-- A named struct field (`syn::Field` with an identifier). -/
structure Field where
  ident : String
  attrs : List Attr
  ty : RustType
deriving DecidableEq

/-- Embedding of `syn::Fields`: unit, unnamed (tuple) fields where only the
types are consumed, or named fields. -/
inductive Fields where
  | unit
  | unnamed (tys : List RustType)
  | named (fields : List Field)
deriving DecidableEq

/-- Embedding of `syn::ItemStruct`. -/
structure ItemStruct where
  ident : String
  attrs : List Attr
  fields : Fields
deriving DecidableEq

/-- One enum variant (`syn::Variant`). -/
structure Variant where
  ident : String
  attrs : List Attr
  fields : Fields
deriving DecidableEq

/-- Embedding of `syn::ItemEnum`. -/
structure ItemEnum where
  ident : String
  attrs : List Attr
  variants : List Variant
deriving DecidableEq

/-- Embedding of `syn::Lit` as far as the event visitor distinguishes
literals (it only ever matches on string literals). -/
inductive Lit where
  | strLit (s : String)
  | intLit (n : Int)
  | boolLit (b : Bool)
  | otherLit
deriving DecidableEq

mutual
/-- Embedding of the fragment of `syn::Expr` that the event visitor
distinguishes: literals, path expressions (bare variable references),
struct-literal expressions, method calls, and a catch-all for every other
expression kind carrying its sub-expressions for the traversal. -/
inductive Expr where
  | litE (l : Lit)
  | pathE (segments : List String)
  | structE (segments : List String) (field_values : Exprs)
  | methodCall (receiver : Expr) (method : String) (args : Exprs)
  | otherE (children : Exprs)
deriving DecidableEq

/-- A list of expressions, as its own inductive for structural recursion. -/
inductive Exprs where
  | nil
  | cons (head : Expr) (tail : Exprs)
deriving DecidableEq
end

/-- Positional access on an embedded expression list (`node.args.get(i)`). -/
def Exprs.get? : Exprs → Nat → Option Expr
  | .nil, _ => none
  | .cons h _, 0 => some h
  | .cons _ t, n + 1 => t.get? n

/-- Embedding of `syn::Pat` as far as the command extractor inspects it:
an identifier pattern or anything else (which is named `"arg"`). -/
inductive Pat where
  | identPat (name : String)
  | otherPat
deriving DecidableEq

/-- Embedding of `syn::FnArg`: a `self` receiver or a typed argument. -/
inductive FnArg where
  | receiver
  | typed (pat : Pat) (ty : RustType)
deriving DecidableEq

/-- Embedding of `syn::ItemFn`: name, attributes, inputs, declared return
type (`none` models `ReturnType::Default`), and the expressions of the
body block (the event visitor walks them). -/
structure ItemFn where
  ident : String
  attrs : List Attr
  inputs : List FnArg
  output : Option RustType
  body : List Expr
deriving DecidableEq

mutual
/-- Embedding of `syn::UseTree`. -/
inductive UseTree where
  | pathT (ident : String) (tree : UseTree)
  | nameT (ident : String)
  | renameT (ident : String) (rename : String)
  | group (items : UseTrees)
  | glob
deriving DecidableEq

/-- A list of use trees, as its own inductive for structural recursion. -/
inductive UseTrees where
  | nil
  | cons (head : UseTree) (tail : UseTrees)
deriving DecidableEq
end

/-- Embedding of the `syn::Item` variants the extractor dispatches on. -/
inductive Item where
  | structI (s : ItemStruct)
  | enumI (e : ItemEnum)
  | fnI (f : ItemFn)
  | useI (tree : UseTree)
  | otherI
deriving DecidableEq

/-- The alias `HashMap<String, String>`: an association list where the most
recent insert shadows older entries for the same key. -/
def AliasMap : Type := List (String × String)

/-- `HashMap::insert` (overwrite modelled by shadowing). -/
def alias_insert (aliases : AliasMap) (key value : String) : AliasMap :=
  (key, value) :: aliases

/-- `HashMap::get` (first, i.e. most recent, binding wins). -/
def alias_get (aliases : AliasMap) (key : String) : Option String :=
  (List.find? (fun p => p.1 = key) aliases).map (fun p => p.2)

mutual
/-- Port of `parse_use_tree`: folds a `use` tree into the alias map.
A path segment extends the current path; a plain name `use a::B` inserts
`B ↦ a::B`; a rename `use a::B as C` inserts `C ↦ a::B`; a group recurses
over its entries; a glob import is ignored. -/
def parse_use_tree (aliases : AliasMap) (tree : UseTree)
    (current_path : List String) : AliasMap :=
  match tree with
  | .pathT ident sub_tree => parse_use_tree aliases sub_tree (current_path ++ [ident])
  | .nameT ident =>
    alias_insert aliases ident (String.intercalate "::" (current_path ++ [ident]))
  | .renameT ident rename =>
    alias_insert aliases rename (String.intercalate "::" (current_path ++ [ident]))
  | .group items => parse_use_trees aliases items current_path
  | .glob => aliases

/-- Fold of `parse_use_tree` over a group's entries, in order. -/
def parse_use_trees (aliases : AliasMap) (trees : UseTrees)
    (current_path : List String) : AliasMap :=
  match trees with
  | .nil => aliases
  | .cons t ts => parse_use_trees (parse_use_tree aliases t current_path) ts current_path
end

/-- Port of `extract_use_aliases`: folds every `use` item of the module
into one alias map. -/
def extract_use_aliases (items : List Item) : AliasMap :=
  items.foldl (fun aliases item =>
    match item with
    | .useI tree => parse_use_tree aliases tree []
    | _ => aliases) []

/-- Port of `ExtractedTypeInfo` from `type_extractor.rs`. -/
structure ExtractedTypeInfo where
  name : String
  ts_interface : TsShape
  is_serializable : Bool
  is_deserializable : Bool
deriving DecidableEq

/-- Port of `convert_struct_to_ts_interface`: named fields become
`{name, type, doc_comment}` entries with non-strict type mapping; unit and
tuple structs contribute no fields. -/
def convert_struct_to_ts_interface (s : ItemStruct)
    (defined_types : List String) : TsShape :=
  let fields_ts : List TsField :=
    match s.fields with
    | .named fields => fields.map fun field =>
      { name := field.ident,
        ty := type_to_ts field.ty defined_types false,
        doc_comment := extract_doc_comments field.attrs }
    | _ => []
  .interface s.ident (extract_doc_comments s.attrs) fields_ts

/-- One variant of `convert_enum_to_ts_enum`: unit, tuple (ordered
non-strict-mapped member types) or struct (named members). -/
def convert_variant_to_ts (v : Variant) (defined_types : List String) : TsVariant :=
  { name := v.ident,
    doc_comment := extract_doc_comments v.attrs,
    kind :=
      match v.fields with
      | .unit => .unit
      | .unnamed tys => .tupleK (tys.map fun t => type_to_ts t defined_types false)
      | .named fields => .structK (fields.map fun field =>
          { name := field.ident,
            ty := type_to_ts field.ty defined_types false,
            doc_comment := extract_doc_comments field.attrs }) }

/-- Port of `convert_enum_to_ts_enum`. -/
def convert_enum_to_ts_enum (e : ItemEnum) (defined_types : List String) : TsShape :=
  .enumShape e.ident (extract_doc_comments e.attrs)
    (e.variants.map fun v => convert_variant_to_ts v defined_types)

/-- The loop body of `extract_and_convert_types`, with the incrementally
grown `defined_types_names` accumulator made explicit: each struct or enum
is converted against the names defined so far (its own name not yet
included, exactly as in the Rust loop, which pushes the name only after
converting), and is always modelled regardless of which derives it
carries. -/
def extract_and_convert_types_from (defined_types_names : List String) :
    List Item → List ExtractedTypeInfo
  | [] => []
  | item :: rest =>
    match item with
    | .structI s =>
      { name := s.ident,
        ts_interface := convert_struct_to_ts_interface s defined_types_names,
        is_serializable := has_derive_macro s.attrs "Serialize",
        is_deserializable := has_derive_macro s.attrs "Deserialize" } ::
        extract_and_convert_types_from (defined_types_names ++ [s.ident]) rest
    | .enumI e =>
      { name := e.ident,
        ts_interface := convert_enum_to_ts_enum e defined_types_names,
        is_serializable := has_derive_macro e.attrs "Serialize",
        is_deserializable := has_derive_macro e.attrs "Deserialize" } ::
        extract_and_convert_types_from (defined_types_names ++ [e.ident]) rest
    | _ => extract_and_convert_types_from defined_types_names rest

/-- Port of `extract_and_convert_types`. -/
def extract_and_convert_types (items : List Item) : List ExtractedTypeInfo :=
  extract_and_convert_types_from [] items

/-- Character-level string prefix test, standing in for Rust's
`str::starts_with` (byte-level and character-level prefixes coincide on
valid UTF-8 strings). -/
def starts_with_str (s p : String) : Bool :=
  s.toList.take p.toList.length = p.toList

/-- Port of `is_ignored_tauri_type`: join the path segments, canonicalize a
single-segment path through the alias map, then prefix-match
`tauri::State` (it is generic) and equality-match the rest of the
deny-list.  References are unwrapped recursively. -/
def is_ignored_tauri_type (ty : RustType) (aliases : AliasMap) : Bool :=
  match ty with
  | .path pre ident _ =>
    let segments := pre ++ [ident]
    let path_str := String.intercalate "::" segments
    let final_path :=
      if segments.length = 1 then (alias_get aliases path_str).getD path_str
      else path_str
    if starts_with_str final_path "tauri::State" then true
    else IGNORED_TAURI_TYPES.contains final_path
  | .reference elem => is_ignored_tauri_type elem aliases
  | _ => false

/-- Port of `is_tauri_ipc_response`: the alias-canonicalized joined path
equals `tauri::ipc::Response`; references are unwrapped recursively. -/
def is_tauri_ipc_response (ty : RustType) (aliases : AliasMap) : Bool :=
  match ty with
  | .path pre ident _ =>
    let segments := pre ++ [ident]
    let path_str := String.intercalate "::" segments
    let final_path :=
      if segments.length = 1 then (alias_get aliases path_str).getD path_str
      else path_str
    final_path = "tauri::ipc::Response"
  | .reference elem => is_tauri_ipc_response elem aliases
  | _ => false

/-- The argument name taken from the pattern of a typed input (`Pat::Ident`
keeps its identifier, anything else is called `"arg"`). -/
def pat_name : Pat → String
  | .identPat n => n
  | .otherPat => "arg"

/-- The per-argument deserializability check of `extract_tauri_commands`:
every user-defined type name reachable in the argument's type whose
`ExtractedTypeInfo` is found must be deserializable (names without a
matching entry do not constrain, exactly as in the Rust loop). -/
def arg_all_deserializable (all_extracted_types : List ExtractedTypeInfo)
    (defined_types_names : List String) (ty : RustType) : Bool :=
  (get_user_defined_type_names ty defined_types_names).all fun user_type_name =>
    match List.find? (fun info => info.name = user_type_name) all_extracted_types with
    | some type_info => type_info.is_deserializable
    | none => true

/-- The parameter loop of `extract_tauri_commands`, producing the `args`
and `invoke_args` lists in one pass: receivers are not typed arguments,
deny-listed framework context types are skipped, arguments reaching a
non-deserializable user type are skipped, and every kept argument pushes
its `"name: type"` display entry and its `"name: name"` invocation entry
at the same position. -/
def command_args (aliases : AliasMap) (all_extracted_types : List ExtractedTypeInfo)
    (defined_types_names : List String) : List FnArg → List String × List String
  | [] => ([], [])
  | input :: rest =>
    let tail := command_args aliases all_extracted_types defined_types_names rest
    match input with
    | .receiver => tail
    | .typed pat ty =>
      if is_ignored_tauri_type ty aliases then tail
      else
        let name := pat_name pat
        let ty_str := type_to_ts ty defined_types_names true
        if arg_all_deserializable all_extracted_types defined_types_names ty then
          ((name ++ ": " ++ ty_str) :: tail.1, (name ++ ": " ++ name) :: tail.2)
        else tail

/-- The `Result<(), E>` test of `extract_tauri_commands`: the declared type
is a path whose last segment is `Result` and whose first generic argument
is the empty tuple. -/
def is_result_unit_type : RustType → Bool
  | .path _ ident args =>
    ident = "Result" &&
      match args with
      | .cons (.tuple .nil) _ => true
      | _ => false
  | _ => false

/-- The return-type computation of `extract_tauri_commands`: `Result<(), E>`
maps to `void`, the opaque IPC response wrapper to `unknown`, anything else
is mapped strictly; afterwards, if any reachable user-defined type resolves
to a non-serializable entry, the result is overridden to `unknown` (the
Rust loop with `break` is equivalent to this `any`).  A missing declared
type (`ReturnType::Default`) maps to `void`. -/
def command_return_type (aliases : AliasMap)
    (all_extracted_types : List ExtractedTypeInfo)
    (defined_types_names : List String) : Option RustType → String
  | none => "void"
  | some ty =>
    let final_ret_ty :=
      if is_result_unit_type ty then "void"
      else if is_tauri_ipc_response ty aliases then "unknown"
      else type_to_ts ty defined_types_names true
    if (get_user_defined_type_names ty defined_types_names).any (fun user_type_name =>
        match List.find? (fun info => info.name = user_type_name) all_extracted_types with
        | some type_info => !type_info.is_serializable
        | none => false)
    then "unknown"
    else final_ret_ty

/-- The JSON object `extract_tauri_commands` builds per command, as
structured data. -/
structure CommandJson where
  name : String
  doc_comment : String
  args : List String
  invoke_args : List String
  return_type : String
deriving DecidableEq

/-- The command descriptor built for one marked procedure. -/
def command_of (aliases : AliasMap) (all_extracted_types : List ExtractedTypeInfo)
    (defined_types_names : List String) (f : ItemFn) : CommandJson :=
  let pair := command_args aliases all_extracted_types defined_types_names f.inputs
  { name := f.ident,
    doc_comment := extract_doc_comments f.attrs,
    args := pair.1,
    invoke_args := pair.2,
    return_type := command_return_type aliases all_extracted_types defined_types_names f.output }

/-- The per-item step of `extract_tauri_commands`: only function items
carrying a command marker produce a descriptor. -/
def item_command (aliases : AliasMap) (all_extracted_types : List ExtractedTypeInfo)
    (defined_types_names : List String) : Item → Option CommandJson
  | .fnI f =>
    if has_tauri_command f.attrs then
      some (command_of aliases all_extracted_types defined_types_names f)
    else none
  | _ => none

/-- Port of `extract_tauri_commands`: the alias map is computed once from
the whole module, the defined-type-name list is taken from the completed
`ExtractedTypeInfo` list, and every marked function item yields one
descriptor, in module order. -/
def extract_tauri_commands (items : List Item)
    (all_extracted_types : List ExtractedTypeInfo) : List CommandJson :=
  let aliases := extract_use_aliases items
  let defined_types_names := all_extracted_types.map (fun info => info.name)
  items.filterMap (item_command aliases all_extracted_types defined_types_names)

/-- Port of `EventInfo`. -/
structure EventInfo where
  event_name : String
  payload_type : String
deriving DecidableEq

/-- Port of `WindowEventInfo`. -/
structure WindowEventInfo where
  window_name : String
  event_name : String
  payload_type : String
deriving DecidableEq

/-- The type text the event visitor synthesizes from a payload argument:
the last path segment of a bare path expression or of a struct literal's
type path, and `"any"` for every other expression.  (The `unwrap_or`
fallbacks for an empty segment list are modelled with `getD`.) -/
def payload_rust_type : Expr → String
  | .pathE segments => segments.getLast?.getD "any"
  | .structE segments _ => segments.getLast?.getD "any"
  | _ => "any"

/-- The payload type the event visitor records: the synthesized type text,
parsed and mapped in strict mode.  `syn::parse_str` of a plain identifier
yields a single-segment path type, so its parse-failure fallback is
unreachable here. -/
def payload_type_of (defined_types : List String) (arg : Expr) : String :=
  type_to_ts (.path [] (payload_rust_type arg) .nil) defined_types true

/-- The body of `EventVisitor::visit_expr_method_call` for one method-call
node: a call named `emit` whose first argument is a string literal yields a
global event; a call named `emit_to` whose first two arguments are string
literals yields a window event; the payload argument (second resp. third)
is mapped with `payload_type_of`, or `"void"` when absent.  The receiver is
never inspected. -/
def events_of_method_call (defined_types : List String) (_receiver : Expr)
    (method : String) (args : Exprs) : List EventInfo × List WindowEventInfo :=
  if method = "emit" then
    match args.get? 0 with
    | some (.litE (.strLit event_name)) =>
      let payload_type :=
        match args.get? 1 with
        | some arg => payload_type_of defined_types arg
        | none => "void"
      ([{ event_name := event_name, payload_type := payload_type }], [])
    | _ => ([], [])
  else if method = "emit_to" then
    match args.get? 0, args.get? 1 with
    | some (.litE (.strLit window_name)), some (.litE (.strLit event_name)) =>
      let payload_type :=
        match args.get? 2 with
        | some arg => payload_type_of defined_types arg
        | none => "void"
      ([], [{ window_name := window_name, event_name := event_name,
              payload_type := payload_type }])
    | _, _ => ([], [])
  else ([], [])

/-- Append componentwise the two event accumulators. -/
def pair_append (x y : List EventInfo × List WindowEventInfo) :
    List EventInfo × List WindowEventInfo :=
  (x.1 ++ y.1, x.2 ++ y.2)

mutual
/-- The depth-first traversal of `syn::visit` specialized to the event
visitor: a method-call node first contributes its own events, then its
receiver's, then its arguments' (the `visit_expr_method_call` handler
pushes before delegating to the default traversal); all other nodes only
recurse into their children. -/
def collect_events_expr (defined_types : List String) :
    Expr → List EventInfo × List WindowEventInfo
  | .litE _ => ([], [])
  | .pathE _ => ([], [])
  | .structE _ field_values => collect_events_exprs defined_types field_values
  | .methodCall receiver method args =>
    pair_append (events_of_method_call defined_types receiver method args)
      (pair_append (collect_events_expr defined_types receiver)
        (collect_events_exprs defined_types args))
  | .otherE children => collect_events_exprs defined_types children

/-- Traversal over an expression list, in order. -/
def collect_events_exprs (defined_types : List String) :
    Exprs → List EventInfo × List WindowEventInfo
  | .nil => ([], [])
  | .cons e es =>
    pair_append (collect_events_expr defined_types e)
      (collect_events_exprs defined_types es)
end

/-- Events contributed by one item: the expressions of a function body,
in order (non-function items hold no expressions). -/
def item_events (defined_types : List String) : Item → List EventInfo × List WindowEventInfo
  | .fnI f =>
    f.body.foldr (fun e acc => pair_append (collect_events_expr defined_types e) acc) ([], [])
  | _ => ([], [])

/-- Port of `extract_events`: the defined-type-name list is taken from the
completed `ExtractedTypeInfo` list; the visitor walks every item in module
order, accumulating global and window events. -/
def extract_events (items : List Item)
    (all_extracted_types : List ExtractedTypeInfo) :
    List EventInfo × List WindowEventInfo :=
  let defined_types_names := all_extracted_types.map (fun info => info.name)
  items.foldr (fun item acc => pair_append (item_events defined_types_names item) acc) ([], [])

/-- The keep/drop decision of the parameter loop, as a predicate: a `self`
receiver is never a typed argument; a typed argument is kept exactly when
its type is not deny-listed and all reachable user-defined types resolve
as deserializable. -/
def keep_param (aliases : AliasMap) (all_extracted_types : List ExtractedTypeInfo)
    (defined_types_names : List String) : FnArg → Bool
  | .receiver => false
  | .typed _ ty =>
    !is_ignored_tauri_type ty aliases
      && arg_all_deserializable all_extracted_types defined_types_names ty

/-- The `"name: type"` display entry a kept argument contributes. -/
def display_arg (defined_types_names : List String) : FnArg → String
  | .typed pat ty => pat_name pat ++ ": " ++ type_to_ts ty defined_types_names true
  | .receiver => ""

/-- The `"name: name"` invocation-object entry a kept argument contributes. -/
def invoke_arg : FnArg → String
  | .typed pat _ => pat_name pat ++ ": " ++ pat_name pat
  | .receiver => ""

/-- Projection of an extracted type to its name and two direction flags. -/
def name_and_flags (info : ExtractedTypeInfo) : String × Bool × Bool :=
  (info.name, info.is_serializable, info.is_deserializable)

/-- The name and direction flags a struct or enum declaration ought to be
recorded with: its identifier plus the presence of the `Serialize` resp.
`Deserialize` derive; other items contribute nothing. -/
def declared_name_and_flags : Item → Option (String × Bool × Bool)
  | .structI s =>
    some (s.ident, has_derive_macro s.attrs "Serialize", has_derive_macro s.attrs "Deserialize")
  | .enumI e =>
    some (e.ident, has_derive_macro e.attrs "Serialize", has_derive_macro e.attrs "Deserialize")
  | _ => none

/-- The `#[tauri::command]` marker attribute, used by the concrete
modules below. -/
def command_attr : Attr := ⟨["tauri", "command"], .plain⟩

/-- Fixture: a struct deriving only `Serialize` (so not deserializable). -/
def secret_struct : ItemStruct :=
  ⟨"Secret", [⟨["derive"], .paths [["Serialize"]]⟩], .named []⟩

/-- Fixture: a marked command taking the non-deserializable `Secret` first
and a plain `String` second. -/
def store_secret_fn : ItemFn :=
  { ident := "store_secret", attrs := [command_attr],
    inputs := [.typed (.identPat "s") (tyName "Secret"),
               .typed (.identPat "msg") (tyName "String")],
    output := none, body := [] }

/-- Fixture: a plain struct with no derive attributes at all. -/
def my_err_struct : ItemStruct := ⟨"MyErr", [], .named []⟩

/-- Fixture: a marked command declared as `Result<(), MyErr>`. -/
def fail_cmd_fn : ItemFn :=
  { ident := "fail_cmd", attrs := [command_attr], inputs := [],
    output := some (tyApp2 "Result" (.tuple .nil) (tyName "MyErr")),
    body := [] }

/-- Fixture: the module containing `MyErr` and `fail_cmd`. -/
def result_unit_items : List Item := [.structI my_err_struct, .fnI fail_cmd_fn]

/-- Fixture: a marked command whose body emits `"evt"` with the integer
literal `42` as payload. -/
def emit_literal_fn : ItemFn :=
  { ident := "notify", attrs := [command_attr],
    inputs := [.typed (.identPat "app") (tyName "AppHandle")],
    output := none,
    body := [.methodCall (.pathE ["app"]) "emit"
      (.cons (.litE (.strLit "evt")) (.cons (.litE (.intLit 42)) .nil))] }

/-- Fixture: a helper function whose body calls `.emit("evt")` on a
receiver that is not bound to any parameter at all. -/
def foreign_receiver_fn : ItemFn :=
  { ident := "helper_fn", attrs := [], inputs := [], output := none,
    body := [.methodCall (.pathE ["not_a_handle"]) "emit"
      (.cons (.litE (.strLit "evt")) .nil)] }

/-- Fixture: struct `A` whose single field has the user type `B`. -/
def struct_a_refs_b : ItemStruct := ⟨"A", [], .named [⟨"b", [], tyName "B"⟩]⟩

/-- Fixture: the empty struct `B`. -/
def struct_b : ItemStruct := ⟨"B", [], .named []⟩

/-- Fixture: a marked command taking `tauri::State<String>` first and a
plain `String` second. -/
def greet_fn : ItemFn :=
  { ident := "greet", attrs := [command_attr],
    inputs := [.typed (.identPat "state")
                 (.path ["tauri"] "State" (.cons (tyName "String") .nil)),
               .typed (.identPat "message") (tyName "String")],
    output := none, body := [] }

/-- Fixture: `Point { x: i32, y: i32 }` with no serialization tags. -/
def point_struct : ItemStruct :=
  ⟨"Point", [], .named [⟨"x", [], tyName "i32"⟩, ⟨"y", [], tyName "i32"⟩]⟩

/-- Fixture: the extracted types of the module consisting of `Secret`
alone (serializable, not deserializable). -/
def c1_module_types : List ExtractedTypeInfo :=
  extract_and_convert_types [.structI secret_struct]

/-- The parameter loop builds exactly the display entries and the
invocation entries of the kept arguments, in order. -/
theorem command_args_eq_filter (aliases : AliasMap)
    (all_extracted_types : List ExtractedTypeInfo)
    (defined_types_names : List String) (inputs : List FnArg) :
    command_args aliases all_extracted_types defined_types_names inputs =
      ((inputs.filter (keep_param aliases all_extracted_types defined_types_names)).map
        (display_arg defined_types_names),
       (inputs.filter (keep_param aliases all_extracted_types defined_types_names)).map
        invoke_arg) := by
  induction inputs with
  | nil => rfl
  | cons input rest ih =>
    cases input with
    | receiver => simpa [command_args, keep_param, List.filter_cons] using ih
    | typed pat ty =>
      by_cases hig : is_ignored_tauri_type ty aliases
      · simp [command_args, keep_param, List.filter_cons, hig, ih]
      · by_cases hdes : arg_all_deserializable all_extracted_types defined_types_names ty
        · simp [command_args, keep_param, List.filter_cons, hig, hdes, ih, display_arg, invoke_arg]
        · simp [command_args, keep_param, List.filter_cons, hig, hdes, ih]

/-- Folding the alias step over a module without use items leaves the
accumulator unchanged. -/
theorem foldl_alias_no_use :
    ∀ (items : List Item) (acc : AliasMap), (∀ t, Item.useI t ∉ items) →
      items.foldl (fun aliases item =>
        match item with
        | .useI tree => parse_use_tree aliases tree []
        | _ => aliases) acc = acc := by
  intro items
  induction items with
  | nil => intro acc _; rfl
  | cons i rest ih =>
    intro acc h
    have hrest : ∀ t, Item.useI t ∉ rest := fun t ht => h t (List.mem_cons_of_mem _ ht)
    cases i with
    | useI t => exact (h t (List.mem_cons_self _ _)).elim
    | structI s => exact ih acc hrest
    | enumI e => exact ih acc hrest
    | fnI f => exact ih acc hrest
    | otherI => exact ih acc hrest

/-- A module without use items produces the empty alias map. -/
theorem extract_use_aliases_eq_nil (items : List Item)
    (h : ∀ t, Item.useI t ∉ items) :
    extract_use_aliases items = [] :=
  foldl_alias_no_use items [] h

/-- The event fold over items splits into two flat maps. -/
theorem foldr_pair_append_eq {α : Type} (f : α → List EventInfo × List WindowEventInfo)
    (xs : List α) :
    xs.foldr (fun x acc => pair_append (f x) acc) ([], []) =
      (xs.flatMap (fun x => (f x).1), xs.flatMap (fun x => (f x).2)) := by
  induction xs with
  | nil => rfl
  | cons x rest ih =>
    rw [List.foldr_cons, ih]
    simp [pair_append]

/-- The extracted types project, name-and-flags-wise, to the declared
names and derive flags of the module's struct and enum items, whatever
the accumulator of already-seen names is. -/
theorem extract_types_from_name_flags (items : List Item) :
    ∀ defined_types_names : List String,
    (extract_and_convert_types_from defined_types_names items).map name_and_flags =
      items.filterMap declared_name_and_flags := by
  induction items with
  | nil => intro d; rfl
  | cons i rest ih =>
    intro d
    cases i <;>
      simp [extract_and_convert_types_from, declared_name_and_flags, name_and_flags,
        List.filterMap_cons, ih]

/-- Helper for C5: an identifier that is none of the specially handled
type names selects the default arm of the mapper dispatch. -/
theorem classify_ident_default (x : String)
    (hx : x ∉ ["String", "bool", "u8", "u16", "u32", "u64", "u128", "i8", "i16",
      "i32", "i64", "i128", "usize", "isize", "f32", "f64",
      "Option", "Vec", "HashMap", "Result"]) :
    classify_ident x = .defaultArm := by
  simp only [List.mem_cons, not_or] at hx
  obtain ⟨h1, h2, h3, h4, h5, h6, h7, h8, h9, h10, h11, h12, h13, h14, h15, h16,
    h17, h18, h19, h20, -⟩ := hx
  simp [classify_ident, h1, h2, h3, h4, h5, h6, h7, h8, h9, h10, h11, h12, h13,
    h14, h15, h16, h17, h18, h19, h20]

/-- Helper for C5: a plain identifier on the default arm maps, in strict
mode, to the foreign-marker-prefixed identifier. -/
theorem strict_plain_ident_ts (x : String) (defined_types : List String)
    (hx : classify_ident x = .defaultArm) :
    type_to_ts (.path [] x .nil) defined_types true = "T." ++ x := by
  simp [type_to_ts, type_to_ts_list, path_type_to_ts, hx]

/-- **C1.** For every marked command procedure, a typed parameter whose
declared type reaches (through reference, tuple and generic-argument
positions) a user-defined type recorded with `deserializable = false` is
dropped entirely: it fails the keep predicate, `args` and `invoke_args`
are exactly the display and invocation entries of the kept parameters,
and at every index both lists are generated from the same kept
parameter. -/
theorem c1_nondeserializable_param_dropped (aliases : AliasMap)
    (all_extracted_types : List ExtractedTypeInfo) (defined_types_names : List String)
    (f : ItemFn) (pat : Pat) (ty : RustType) (tn : String) (info : ExtractedTypeInfo)
    (hreach : tn ∈ get_user_defined_type_names ty defined_types_names)
    (hfind : List.find? (fun i => i.name = tn) all_extracted_types = some info)
    (hdeser : info.is_deserializable = false) :
    keep_param aliases all_extracted_types defined_types_names (.typed pat ty) = false ∧
    (command_of aliases all_extracted_types defined_types_names f).args =
      (f.inputs.filter (keep_param aliases all_extracted_types defined_types_names)).map
        (display_arg defined_types_names) ∧
    (command_of aliases all_extracted_types defined_types_names f).invoke_args =
      (f.inputs.filter (keep_param aliases all_extracted_types defined_types_names)).map
        invoke_arg ∧
    ∀ i : Nat,
      ((command_of aliases all_extracted_types defined_types_names f).args[i]?).isSome →
      ∃ p : FnArg,
        (f.inputs.filter (keep_param aliases all_extracted_types defined_types_names))[i]?
            = some p ∧
        (command_of aliases all_extracted_types defined_types_names f).args[i]?
            = some (display_arg defined_types_names p) ∧
        (command_of aliases all_extracted_types defined_types_names f).invoke_args[i]?
            = some (invoke_arg p) := by
  have hdes : arg_all_deserializable all_extracted_types defined_types_names ty = false := by
    rw [arg_all_deserializable, List.all_eq_false]
    refine ⟨tn, hreach, ?_⟩
    simp [hfind, hdeser]
  have hargs : (command_of aliases all_extracted_types defined_types_names f).args =
      (f.inputs.filter (keep_param aliases all_extracted_types defined_types_names)).map
        (display_arg defined_types_names) := by
    simp [command_of, command_args_eq_filter]
  have hinv : (command_of aliases all_extracted_types defined_types_names f).invoke_args =
      (f.inputs.filter (keep_param aliases all_extracted_types defined_types_names)).map
        invoke_arg := by
    simp [command_of, command_args_eq_filter]
  refine ⟨by simp [keep_param, hdes], hargs, hinv, ?_⟩
  intro i hi
  rw [hargs] at hi
  cases hp : (f.inputs.filter (keep_param aliases all_extracted_types defined_types_names))[i]? with
  | none => rw [List.getElem?_map, hp] at hi; simp at hi
  | some p =>
    refine ⟨p, rfl, ?_, ?_⟩
    · rw [hargs, List.getElem?_map, hp]; rfl
    · rw [hinv, List.getElem?_map, hp]; rfl

/-- **C1 (witness).** In the module declaring `Secret` (serializable only),
a marked command taking `s: Secret` and `msg: String` keeps only `msg`,
in both lists. -/
theorem c1_witness :
    keep_param [] c1_module_types ["Secret"] (.typed (.identPat "s") (tyName "Secret")) = false ∧
    (command_of [] c1_module_types ["Secret"] store_secret_fn).args = ["msg: string"] ∧
    (command_of [] c1_module_types ["Secret"] store_secret_fn).invoke_args = ["msg: msg"] := by
  have h := c1_nondeserializable_param_dropped [] c1_module_types ["Secret"] store_secret_fn
    (.identPat "s") (tyName "Secret") "Secret"
    ⟨"Secret", .interface "Secret" "" [], true, false⟩
    (by decide) (by decide) (by decide)
  exact ⟨h.1, by rw [h.2.1]; rfl, by rw [h.2.2.1]; rfl⟩

/-- **C2 (counterexample).** The mapper renders `Vec<Option<u32>>` as
`number | undefined[]`, not as the parenthesized `(number | undefined)[]`
the claim states: the array suffix is appended with no parenthesization
even when the inner mapping contains a union. -/
theorem c2_counterexample :
    type_to_ts (tyApp "Vec" (tyApp "Option" (tyName "u32"))) [] false
        = "number | undefined[]" ∧
      ("number | undefined[]" : String) ≠ "(number | undefined)[]" :=
  ⟨rfl, by decide⟩

/-- **C2 (amended).** For every inner type, `Vec<T>` maps to the mapping
of `T` directly followed by the array suffix `[]`, with no parenthesization
in any case (in particular when the inner mapping contains a union). -/
theorem c2_amended_vec_suffix (pre : List String) (t : RustType) (rest : RustTypes)
    (defined_types : List String) (is_tauri_command_type : Bool) :
    type_to_ts (.path pre "Vec" (.cons t rest)) defined_types is_tauri_command_type
      = type_to_ts t defined_types is_tauri_command_type ++ "[]" := by
  simp [type_to_ts, type_to_ts_list, path_type_to_ts, classify_ident]

/-- **C3 (counterexample).** For a marked command declared
`Result<(), MyErr>` where `MyErr` is a user type without `Serialize`, the
produced `return_type` is `"unknown"`, not `"void"`: the serializability
override also scans the error arm, so the claim's "for every error arm"
fails. -/
theorem c3_counterexample :
    (extract_tauri_commands result_unit_items
        (extract_and_convert_types result_unit_items)).map (fun c => c.return_type)
      = ["unknown"] ∧
    is_result_unit_type (tyApp2 "Result" (.tuple .nil) (tyName "MyErr")) = true ∧
    ("unknown" : String) ≠ "void" :=
  ⟨rfl, rfl, by decide⟩

/-- **C3 (amended).** A return type that is a two-armed `Result` with empty
tuple success arm maps to `"void"` provided no user-defined type reachable
anywhere in the declared return type (the error arm included) resolves to
a non-serializable entry. -/
theorem c3_amended_result_unit_void (aliases : AliasMap)
    (all_extracted_types : List ExtractedTypeInfo) (defined_types_names : List String)
    (ty : RustType)
    (hru : is_result_unit_type ty = true)
    (hser : ∀ tn ∈ get_user_defined_type_names ty defined_types_names,
      ∀ info, List.find? (fun i => i.name = tn) all_extracted_types = some info →
        info.is_serializable = true) :
    command_return_type aliases all_extracted_types defined_types_names (some ty) = "void" := by
  have hany : ((get_user_defined_type_names ty defined_types_names).any
      (fun user_type_name =>
        match List.find? (fun info => info.name = user_type_name) all_extracted_types with
        | some type_info => !type_info.is_serializable
        | none => false)) = false := by
    rw [List.any_eq_false]
    intro tn htn
    cases hf : List.find? (fun info => info.name = tn) all_extracted_types with
    | none => simp
    | some info => simp [hser tn htn info hf]
  simp [command_return_type, hru, hany]

/-- **C3 (witness).** `Result<(), String>` maps to `"void"`. -/
theorem c3_witness :
    is_result_unit_type (tyApp2 "Result" (.tuple .nil) (tyName "String")) = true ∧
    command_return_type [] [] [] (some (tyApp2 "Result" (.tuple .nil) (tyName "String")))
      = "void" := by
  refine ⟨rfl, c3_amended_result_unit_void [] [] [] _ rfl ?_⟩
  intro tn htn info hf
  exact absurd htn (List.not_mem_nil tn)

/-- **C4.** A marked command whose declared return type reaches a
user-defined type recorded with `serializable = false` still produces its
descriptor (it stays in the command list) and that descriptor's
`return_type` is forced to the opaque marker `"unknown"`. -/
theorem c4_nonserializable_return_unknown (items : List Item)
    (all_extracted_types : List ExtractedTypeInfo) (f : ItemFn) (ty : RustType)
    (tn : String) (info : ExtractedTypeInfo)
    (hf : Item.fnI f ∈ items) (hcmd : has_tauri_command f.attrs = true)
    (hout : f.output = some ty)
    (hreach : tn ∈ get_user_defined_type_names ty
      (all_extracted_types.map (fun i => i.name)))
    (hfind : List.find? (fun i => i.name = tn) all_extracted_types = some info)
    (hser : info.is_serializable = false) :
    command_of (extract_use_aliases items) all_extracted_types
        (all_extracted_types.map (fun i => i.name)) f
      ∈ extract_tauri_commands items all_extracted_types ∧
    (command_of (extract_use_aliases items) all_extracted_types
        (all_extracted_types.map (fun i => i.name)) f).return_type = "unknown" := by
  constructor
  · simp only [extract_tauri_commands]
    rw [List.mem_filterMap]
    exact ⟨.fnI f, hf, by simp [item_command, hcmd]⟩
  · have hany : ((get_user_defined_type_names ty
        (all_extracted_types.map (fun i => i.name))).any
        (fun user_type_name =>
          match List.find? (fun info => info.name = user_type_name) all_extracted_types with
          | some type_info => !type_info.is_serializable
          | none => false)) = true := by
      rw [List.any_eq_true]
      exact ⟨tn, hreach, by simp [hfind, hser]⟩
    simp [command_of, command_return_type, hout, hany]

/-- **C4 (witness).** In the module declaring the untagged `MyErr`, the
command returning `Result<(), MyErr>` is produced and its return type is
`"unknown"`. -/
theorem c4_witness :
    command_of (extract_use_aliases result_unit_items)
        (extract_and_convert_types result_unit_items)
        ((extract_and_convert_types result_unit_items).map (fun i => i.name)) fail_cmd_fn
      ∈ extract_tauri_commands result_unit_items
        (extract_and_convert_types result_unit_items) ∧
    (command_of (extract_use_aliases result_unit_items)
        (extract_and_convert_types result_unit_items)
        ((extract_and_convert_types result_unit_items).map (fun i => i.name))
        fail_cmd_fn).return_type = "unknown" := by
  exact c4_nonserializable_return_unknown result_unit_items
    (extract_and_convert_types result_unit_items) fail_cmd_fn
    (tyApp2 "Result" (.tuple .nil) (tyName "MyErr")) "MyErr"
    ⟨"MyErr", .interface "MyErr" "" [], false, false⟩
    (by decide) rfl rfl (by decide) (by decide) rfl

/-- **C5 (counterexample).** An emission with a primitive literal payload
(`emit("evt", 42)`) records the payload type `"T.any"`, not the literal's
kind `"number"` as the claim states: the visitor has no literal-kind
branch, the literal falls into the catch-all `"any"` which strict mapping
turns into `"T.any"`. -/
theorem c5_counterexample :
    (extract_events [.fnI emit_literal_fn] []).1 = [⟨"evt", "T.any"⟩] ∧
    ("T.any" : String) ≠ "number" :=
  ⟨rfl, by decide⟩

/-- **C5 (amended).** For an emission with a literal event name, the
payload type is: absent payload `"void"`; a bare variable reference maps
the variable's own last path-segment identifier (not its declared
parameter type) as a type name in strict mode, yielding the
foreign-marked identifier for an ordinary name; a struct literal maps its
type path's last segment the same way; and every other payload expression,
primitive literals included, becomes `"T.any"`. -/
theorem c5_amended_payload_inference (defined_types : List String) (receiver : Expr)
    (event_name : String) (pre : List String) (x : String) (field_values : Exprs)
    (l : Lit)
    (hx : x ∉ ["String", "bool", "u8", "u16", "u32", "u64", "u128", "i8", "i16",
      "i32", "i64", "i128", "usize", "isize", "f32", "f64",
      "Option", "Vec", "HashMap", "Result"]) :
    events_of_method_call defined_types receiver "emit"
        (.cons (.litE (.strLit event_name)) .nil) = ([⟨event_name, "void"⟩], []) ∧
    events_of_method_call defined_types receiver "emit"
        (.cons (.litE (.strLit event_name)) (.cons (.pathE (pre ++ [x])) .nil))
      = ([⟨event_name, "T." ++ x⟩], []) ∧
    events_of_method_call defined_types receiver "emit"
        (.cons (.litE (.strLit event_name)) (.cons (.structE (pre ++ [x]) field_values) .nil))
      = ([⟨event_name, "T." ++ x⟩], []) ∧
    events_of_method_call defined_types receiver "emit"
        (.cons (.litE (.strLit event_name)) (.cons (.litE l) .nil))
      = ([⟨event_name, "T.any"⟩], []) := by
  have hx' : classify_ident x = .defaultArm := classify_ident_default x hx
  have hpl : ∀ e : Expr, payload_rust_type e = x →
      payload_type_of defined_types e = "T." ++ x := by
    intro e he
    rw [payload_type_of, he, strict_plain_ident_ts x defined_types hx']
  refine ⟨rfl, ?_, ?_, ?_⟩
  · have : payload_type_of defined_types (.pathE (pre ++ [x])) = "T." ++ x := by
      apply hpl
      simp [payload_rust_type, List.getLast?_concat]
    simp [events_of_method_call, Exprs.get?, this]
  · have : payload_type_of defined_types (.structE (pre ++ [x]) field_values) = "T." ++ x := by
      apply hpl
      simp [payload_rust_type, List.getLast?_concat]
    simp [events_of_method_call, Exprs.get?, this]
  · have : payload_type_of defined_types (.litE l) = "T.any" := by
      have hany : classify_ident "any" = .defaultArm := rfl
      have hpr : payload_rust_type (.litE l) = "any" := rfl
      rw [payload_type_of, hpr, strict_plain_ident_ts "any" defined_types hany]
      rfl
    simp [events_of_method_call, Exprs.get?, this]

/-- **C5 (witness).** `emit("ping", payload)` records the payload type
`"T.payload"`, built from the variable's own name. -/
theorem c5_witness :
    (("payload" : String) ∉ ["String", "bool", "u8", "u16", "u32", "u64", "u128",
      "i8", "i16", "i32", "i64", "i128", "usize", "isize", "f32", "f64",
      "Option", "Vec", "HashMap", "Result"]) ∧
    events_of_method_call [] (.pathE ["app"]) "emit"
        (.cons (.litE (.strLit "ping")) (.cons (.pathE ["payload"]) .nil))
      = ([⟨"ping", "T.payload"⟩], []) := by
  refine ⟨by decide, ?_⟩
  have h := (c5_amended_payload_inference [] (.pathE ["app"]) "ping" [] "payload"
    .nil .otherLit (by decide)).2.1
  simpa using h

/-- **C6 (counterexample).** The extracted type list is not independent of
declaration order: with `A { b: B }` declared before `B`, the field type
renders as the foreign-marked `"T.B"`, while declaring `B` first renders
it as `"B"` — the per-name result for `A` differs between the two
orders, because the type-modeling stage grows its known-name list
incrementally. -/
theorem c6_counterexample :
    (extract_and_convert_types [.structI struct_a_refs_b, .structI struct_b]).map
        (fun i => (i.name, i.ts_interface))
      = [("A", .interface "A" "" [⟨"b", "T.B", ""⟩]),
         ("B", .interface "B" "" [])] ∧
    (extract_and_convert_types [.structI struct_b, .structI struct_a_refs_b]).map
        (fun i => (i.name, i.ts_interface))
      = [("B", .interface "B" "" []),
         ("A", .interface "A" "" [⟨"b", "B", ""⟩])] ∧
    (TsShape.interface "A" "" [⟨"b", "T.B", ""⟩])
      ≠ TsShape.interface "A" "" [⟨"b", "B", ""⟩] :=
  ⟨rfl, rfl, by decide⟩

/-- **C6 (amended).** The command and event stages do receive the
known-type-name set as a completed parameter, so given the completed
extracted-type list, permuting a module's items (none of which are import
items, which feed the alias map) permutes the command list and both event
lists accordingly — each per-item result is unchanged.  The type-modeling
stage itself, by contrast, is order-dependent (see the counterexample). -/
theorem c6_amended_commands_events_order_independent
    (all_extracted_types : List ExtractedTypeInfo) (items1 items2 : List Item)
    (hperm : items1.Perm items2)
    (hnouse : ∀ t, Item.useI t ∉ items1) :
    (extract_tauri_commands items1 all_extracted_types).Perm
      (extract_tauri_commands items2 all_extracted_types) ∧
    (extract_events items1 all_extracted_types).1.Perm
      (extract_events items2 all_extracted_types).1 ∧
    (extract_events items1 all_extracted_types).2.Perm
      (extract_events items2 all_extracted_types).2 := by
  have hnouse2 : ∀ t, Item.useI t ∉ items2 := fun t ht => hnouse t (hperm.mem_iff.mpr ht)
  have ha1 : extract_use_aliases items1 = [] := extract_use_aliases_eq_nil items1 hnouse
  have ha2 : extract_use_aliases items2 = [] := extract_use_aliases_eq_nil items2 hnouse2
  refine ⟨?_, ?_, ?_⟩
  · simp only [extract_tauri_commands, ha1, ha2]
    exact hperm.filterMap _
  · simp only [extract_events, foldr_pair_append_eq]
    exact hperm.flatMap_right _
  · simp only [extract_events, foldr_pair_append_eq]
    exact hperm.flatMap_right _

/-- **C6 (witness).** Swapping a struct item and a command item permutes
(here: leaves equal up to permutation) the command list. -/
theorem c6_witness :
    ([Item.structI point_struct, Item.fnI greet_fn].Perm
      [Item.fnI greet_fn, Item.structI point_struct]) ∧
    (extract_tauri_commands [Item.structI point_struct, Item.fnI greet_fn] []).Perm
      (extract_tauri_commands [Item.fnI greet_fn, Item.structI point_struct] []) := by
  have hperm : [Item.structI point_struct, Item.fnI greet_fn].Perm
      [Item.fnI greet_fn, Item.structI point_struct] := List.Perm.swap _ _ _
  refine ⟨hperm, ?_⟩
  exact (c6_amended_commands_events_order_independent [] _ _ hperm
    (by intro t ht; simp at ht)).1

/-- **C7 (counterexample).** A call `.emit("evt")` on a receiver that is
not bound to any conventional handle parameter (here a variable that is
not a parameter at all) is still modeled as a global event, contradicting
the claim that such calls are not modeled. -/
theorem c7_counterexample :
    (extract_events [.fnI foreign_receiver_fn] []).1 = [⟨"evt", "void"⟩] ∧
    (extract_events [.fnI foreign_receiver_fn] []).1 ≠ [] :=
  ⟨rfl, by decide⟩

/-- **C7 (amended).** Emission calls are matched by method name alone:
the modeling of a method-call node is identical for any two receivers
(the receiver expression is never inspected), and a method name other
than the two emission names produces no event. -/
theorem c7_amended_method_name_only (defined_types : List String)
    (receiver other_receiver : Expr) (method : String) (args : Exprs)
    (hm : method ≠ "emit" ∧ method ≠ "emit_to") :
    events_of_method_call defined_types receiver method args =
      events_of_method_call defined_types other_receiver method args ∧
    events_of_method_call defined_types receiver method args = ([], []) := by
  refine ⟨rfl, ?_⟩
  simp [events_of_method_call, hm.1, hm.2]

/-- **C7 (witness).** A `close` call produces no event. -/
theorem c7_witness :
    (("close" : String) ≠ "emit" ∧ ("close" : String) ≠ "emit_to") ∧
    events_of_method_call [] (.pathE ["w"]) "close" .nil = ([], []) := by
  refine ⟨⟨by decide, by decide⟩, ?_⟩
  exact (c7_amended_method_name_only [] (.pathE ["w"]) (.pathE ["w"]) "close" .nil
    ⟨by decide, by decide⟩).2

/-- **C8.** A typed parameter whose alias-canonicalized, reference-stripped
type head matches the framework context deny-list is dropped (it fails the
keep predicate); concretely, the marked `greet` procedure taking
`tauri::State<String>` first and `message: String` second yields
`args = ["message: string"]` with the original name at index 0 and the
matching invocation entry, and the alias-canonicalized single-segment
`MyState<String>` also matches the deny-list by prefix. -/
theorem c8_context_param_dropped (aliases : AliasMap)
    (all_extracted_types : List ExtractedTypeInfo) (defined_types_names : List String)
    (pat : Pat) (ty : RustType)
    (hig : is_ignored_tauri_type ty aliases = true) :
    keep_param aliases all_extracted_types defined_types_names (.typed pat ty) = false ∧
    (extract_tauri_commands [.fnI greet_fn] []).map (fun c => c.args)
      = [["message: string"]] ∧
    (extract_tauri_commands [.fnI greet_fn] []).map (fun c => c.invoke_args)
      = [["message: message"]] ∧
    is_ignored_tauri_type (tyApp "MyState" (tyName "String"))
      (extract_use_aliases [.useI (.pathT "tauri" (.renameT "State" "MyState"))]) = true := by
  refine ⟨?_, rfl, rfl, rfl⟩
  simp [keep_param, hig]

/-- **C8 (witness).** `tauri::State<String>` is deny-listed and dropped. -/
theorem c8_witness :
    is_ignored_tauri_type (.path ["tauri"] "State" (.cons (tyName "String") .nil)) [] = true ∧
    keep_param [] [] []
      (.typed (.identPat "state")
        (.path ["tauri"] "State" (.cons (tyName "String") .nil))) = false := by
  exact ⟨rfl, (c8_context_param_dropped [] [] [] (.identPat "state")
    (.path ["tauri"] "State" (.cons (tyName "String") .nil)) rfl).1⟩

/-- **C9.** Every struct and enum declaration of a module appears in the
extracted type list, with its serializable/deserializable flags recorded
as exactly the presence of the respective derive, regardless of which
tags it carries; in particular the untagged `Point` struct is modeled
with both flags false. -/
theorem c9_every_type_modeled (items : List Item) :
    (extract_and_convert_types items).map name_and_flags =
        items.filterMap declared_name_and_flags ∧
      (extract_and_convert_types [.structI point_struct]).map name_and_flags =
        [("Point", false, false)] :=
  ⟨extract_types_from_name_flags items [], rfl⟩

/-- **C10.** A derive path whose last segment is the direction's macro
name sets the flag: any derive attribute containing a path ending in
`Serialize` makes the predicate true, the fully qualified
`serde::Serialize` produces exactly the same recorded flags as the bare
`Serialize`, and a derive of an unrelated macro (`Debug`) sets neither
flag. -/
theorem c10_derive_last_segment (p : List String) (attrs : List Attr)
    (hlast : p.getLast? = some "Serialize") :
    has_derive_macro (⟨["derive"], .paths [p]⟩ :: attrs) "Serialize" = true ∧
    (extract_and_convert_types
        [.structI ⟨"A", [⟨["derive"], .paths [["serde", "Serialize"]]⟩], .named []⟩]).map
        name_and_flags
      = (extract_and_convert_types
          [.structI ⟨"A", [⟨["derive"], .paths [["Serialize"]]⟩], .named []⟩]).map
          name_and_flags ∧
    (extract_and_convert_types
        [.structI ⟨"A", [⟨["derive"], .paths [["serde", "Serialize"]]⟩], .named []⟩]).map
        name_and_flags
      = [("A", true, false)] ∧
    (extract_and_convert_types
        [.structI ⟨"B", [⟨["derive"], .paths [["Debug"]]⟩], .named []⟩]).map
        name_and_flags
      = [("B", false, false)] := by
  refine ⟨?_, rfl, rfl, rfl⟩
  simp [ has_derive_macro, hlast]

/-- **C10 (witness).** `derive(serde::Serialize)` sets the serializable
flag. -/
theorem c10_witness :
    (["serde", "Serialize"].getLast? = some "Serialize") ∧
      has_derive_macro (⟨["derive"], .paths [["serde", "Serialize"]]⟩ :: ([] : List Attr))
          "Serialize" = true := by
  exact ⟨rfl, (c10_derive_last_segment ["serde", "Serialize"] [] rfl).1⟩

end TauriaTsgen
